import Mathlib

/-!
# Verification of the GitLab compliance-check script

A shallow embedding of the non-UI logic of `script.py`: the file-presence
resolver (`file_exists`, `file_exists_flexible`), the template directory
scanner (`match_template_patterns`, `directory_contains_templates`), the
pagination aggregator (`get_all_projects_with_pagination`), the input
classifier (`get_contributed_projects`, `get_project_by_id_or_url`,
`determine_input_type_and_process`) and the compliance evaluator
(`get_compliance_status`).

The remote HTTP API is modelled by an oracle structure `Api`: each field
gives, for the parameters of one kind of GET request, either the parsed
JSON payload (`some`) or a non-200 response (`none`).  Python strings are
modelled as `List Char`.
-/

namespace ComplianceCheck

/-! ## Python string primitives (ASCII model)

These model the Python `str` operations used by the script.  Unicode
behaviour outside the Basic Latin range is not needed by the script's
string constants, so `lower`/`upper` are the per-character ASCII maps.
-/

/-- Python `str.lower()` (ASCII model). -/
def pyLower (s : List Char) : List Char := s.map Char.toLower

/-- Python `str.upper()` (ASCII model). -/
def pyUpper (s : List Char) : List Char := s.map Char.toUpper

/-- Python `str.isdigit()`: non-empty and all digits. -/
def pyIsDigit (s : List Char) : Bool := !s.isEmpty && s.all Char.isDigit

/-- Python `str.endswith(suf)`. -/
def pyEndsWith (suf s : List Char) : Bool := suf.isSuffixOf s

/-- Python `str.lstrip()` (whitespace). -/
def pyLStrip (s : List Char) : List Char := s.dropWhile Char.isWhitespace

/-- Python `str.rstrip()` (whitespace). -/
def pyRStrip (s : List Char) : List Char :=
  (s.reverse.dropWhile Char.isWhitespace).reverse

/-- Python `str.strip()` (whitespace, both ends). -/
def pyStrip (s : List Char) : List Char := pyRStrip (pyLStrip s)

/-- Worker for `pyReplace`, structurally recursive on a fuel bounded below by
the length of the remaining string.  Scans left to right; on a match of
`pat` it skips it (replacement by the empty string, the only replacement the
script performs) and continues after it, exactly like CPython's
non-overlapping `str.replace(pat, "")` scan. -/
def pyReplaceGo (pat : List Char) : Nat → List Char → List Char
  | _, [] => []
  | 0, s => s
  | fuel + 1, c :: rest =>
    if !pat.isEmpty && ((c :: rest).take pat.length == pat) then
      pyReplaceGo pat fuel ((c :: rest).drop pat.length)
    else
      c :: pyReplaceGo pat fuel rest

/-- Python `s.replace(pat, "")` for non-empty `pat` (the script only ever
replaces by the empty string). -/
def pyReplace (pat s : List Char) : List Char := pyReplaceGo pat s.length s

/-- `s.split(marker)[0]`: the prefix of `s` before the first occurrence of
`marker` (the whole of `s` when `marker` does not occur). -/
def splitHead (marker : List Char) : List Char → List Char
  | [] => []
  | c :: rest =>
    if (c :: rest).take marker.length == marker then []
    else c :: splitHead marker rest

/-- Python `pat in s`: substring containment. -/
def pyContains (pat : List Char) : List Char → Bool
  | [] => pat.isEmpty
  | c :: rest => ((c :: rest).take pat.length == pat) || pyContains pat rest

/-- Uppercase hexadecimal digit, for percent-encoding. -/
def hexDigit (n : Nat) : Char :=
  if n < 10 then Char.ofNat (48 + n) else Char.ofNat (55 + n)

/-- `requests.utils.quote(·, safe="")` applied to one character: unreserved
characters are kept, everything else is percent-encoded (ASCII model). -/
def quoteChar (c : Char) : List Char :=
  if c.isAlphanum || c = '_' || c = '.' || c = '~' || c = '-' then [c]
  else ['%', hexDigit (c.toNat / 16), hexDigit (c.toNat % 16)]

/-- `requests.utils.quote(s, safe="")` (ASCII model). -/
def pyQuote (s : List Char) : List Char := (s.map quoteChar).flatten

/-! ## The regular-expression fragment used by the script

Every pattern in `ISSUE_TEMPLATE_PATTERNS` / `MR_TEMPLATE_PATTERNS` has the
shape `lit₀.*lit₁.*…litₙ$` built from literal characters and `.*` only, and
is applied with `re.match`, which anchors the match at the start of the
string.  A pattern is therefore represented by its leading literal and the
list of the following literals; `.*` matches any characters except `'\n'`.
-/

/-- A pattern `first.*seg₁.*…segₙ$`: leading literal plus trailing literals,
each preceded by `.*`, anchored at both ends (`re.match` + `$`). -/
structure RePat where
  first : List Char
  segs : List (List Char)

/-- Matches `.*seg₁.*…segₙ$` against `s`: some split consumes a gap without
`'\n'`, then the next literal, recursively; the empty pattern list requires
the end of the string (`$`). -/
def tailMatch : List (List Char) → List Char → Bool
  | [], s => s.isEmpty
  | seg :: rest, s =>
    (List.range (s.length + 1)).any fun i =>
      ((s.take i).all (· ≠ '\n')) &&
      ((s.drop i).take seg.length == seg) &&
      tailMatch rest ((s.drop i).drop seg.length)

/-- `re.match(pat, s)` for patterns of the supported shape: the leading
literal at position 0, then the gap-separated literals up to the end. -/
def reMatch (p : RePat) (s : List Char) : Bool :=
  (s.take p.first.length == p.first) && tailMatch p.segs (s.drop p.first.length)

/-! ## Script constants (`script.py` lines 7–33) -/

def GITLAB_URL : List Char := "https://code.swecha.org".toList

/-- `f"{GITLAB_URL}/"`, the prefix removed by the URL classifier. -/
def GITLAB_URL_SLASH : List Char := "https://code.swecha.org/".toList

/-- The slash-dash-slash marker splitting a project web URL from its view
suffix. -/
def DASH_MARKER : List Char := "/-/".toList

def REQUIRED_FILES : List (List Char) :=
  ["README.md".toList, "CONTRIBUTING.md".toList, "CHANGELOG.md".toList, "LICENSE".toList]

def FLEXIBLE_EXTENSION_FILES : List (List Char) := ["CHANGELOG".toList]

/-- `ISSUE_TEMPLATE_PATTERNS`: `issue.*template.*\.md$`,
`issue.*templates.*\.md$`, `issuetemplate.*\.md$`, `issuetemplates.*\.md$`. -/
def ISSUE_TEMPLATE_PATTERNS : List RePat :=
  [⟨"issue".toList, ["template".toList, ".md".toList]⟩,
   ⟨"issue".toList, ["templates".toList, ".md".toList]⟩,
   ⟨"issuetemplate".toList, [".md".toList]⟩,
   ⟨"issuetemplates".toList, [".md".toList]⟩]

/-- `MR_TEMPLATE_PATTERNS`: `merge.*request.*template.*\.md$`,
`merge.*request.*templates.*\.md$`, `mr.*template.*\.md$`,
`mr.*templates.*\.md$`, `mergerequesttemplate.*\.md$`,
`mergerequesttemplates.*\.md$`. -/
def MR_TEMPLATE_PATTERNS : List RePat :=
  [⟨"merge".toList, ["request".toList, "template".toList, ".md".toList]⟩,
   ⟨"merge".toList, ["request".toList, "templates".toList, ".md".toList]⟩,
   ⟨"mr".toList, ["template".toList, ".md".toList]⟩,
   ⟨"mr".toList, ["templates".toList, ".md".toList]⟩,
   ⟨"mergerequesttemplate".toList, [".md".toList]⟩,
   ⟨"mergerequesttemplates".toList, [".md".toList]⟩]

/-! ## Data model and the API oracle -/

/-- A project record as returned by `GET /projects/...`; only the fields the
script reads.  `description` and `tag_list` are `none` when the JSON field
is absent or `null` (Python `dict.get` returns `None` in both cases). -/
structure Project where
  id : Nat
  description : Option (List Char)
  tag_list : Option (List (List Char))
  deriving DecidableEq, Repr

/-- One entry of a repository tree listing: a name and an entry kind
(`"blob"` for files). -/
structure TreeEntry where
  name : List Char
  entryKind : List Char
  deriving DecidableEq, Repr

/-- The query parameters built by `get_contributed_projects` (before the
aggregator adds `page`/`per_page`). -/
structure ProjParams where
  membership : Bool
  order_by : List Char
  deriving DecidableEq, Repr

/-- Oracle for the remote REST API: each field maps the parameters of one
kind of authenticated GET request to its parsed JSON payload, or `none` for
a non-200 status. -/
structure Api where
  /-- `GET /projects/{id}/repository/files/{quotedPath}?ref={branch}`:
  `true` iff the response status is 200.  The path argument is the
  percent-encoded path exactly as placed in the URL. -/
  fileOk : Nat → List Char → List Char → Bool
  /-- `GET /projects/{id}/repository/tree?path=.gitlab&recursive=true&per_page=100`:
  the (single-page) listing, or `none` for non-200. -/
  tree : Nat → Option (List TreeEntry)
  /-- `GET /projects/{id}` by numeric id: the project record, or `none`. -/
  projectMeta : Nat → Option Project
  /-- `GET /users?username={u}`: the user-id list of the exact-username
  search, or `none` for non-200. -/
  userSearch : List Char → Option (List Nat)
  /-- `GET /projects?...&page={n}&per_page=100` with the given filter
  parameters: one result page, or `none` for non-200. -/
  projectsPage : ProjParams → Nat → Option (List Project)
  /-- `GET /projects/{x}` where `x` is the raw string placed in the URL (a
  digit string or a percent-encoded namespaced path): the project record,
  or `none` for non-200. -/
  projectLookup : List Char → Option Project

/-- The tagged result of `determine_input_type_and_process`:
`('project', data)`, `('projects', list)` or `('error', message)`. -/
inductive ClassifiedInput where
  | project (p : Project)
  | projects (ps : List Project)
  | error (msg : List Char)
  deriving DecidableEq, Repr

/-! ## File presence resolver (`script.py` lines 39–71) -/

/-- The `for branch in ['master', 'main']` loop of `file_exists`: returns
the result together with the list of branch refs actually probed (one GET
per branch until the first 200). -/
def file_exists_go (api : Api) (pid : Nat) (qpath : List Char) :
    List (List Char) → Bool × List (List Char)
  | [] => (false, [])
  | b :: rest =>
    if api.fileOk pid qpath b then (true, [b])
    else
      let r := file_exists_go api pid qpath rest
      (r.1, b :: r.2)

/-- `file_exists(project_id, file_path)`: probes `master` then `main`,
true on the first 200 response. -/
def file_exists (api : Api) (pid : Nat) (path : List Char) : Bool :=
  (file_exists_go api pid (pyQuote path) ["master".toList, "main".toList]).1

/-- The branch refs `file_exists` actually issues lookups for. -/
def file_exists_probes (api : Api) (pid : Nat) (path : List Char) : List (List Char) :=
  (file_exists_go api pid (pyQuote path) ["master".toList, "main".toList]).2

/-- `file_exists_flexible(project_id, file_path)`: canonical path, then the
bare name (when it is a designated flexible file), then the fixed list of
case variants combined with the `.txt`/`.rst` extensions. -/
def file_exists_flexible (api : Api) (pid : Nat) (file_path : List Char) : Bool :=
  if file_exists api pid file_path then true
  else
    let base_name := pyReplace ".md".toList file_path
    if base_name ∈ FLEXIBLE_EXTENSION_FILES then
      if file_exists api pid base_name then true
      else
        let variations :=
          [pyUpper base_name,
           pyLower base_name,
           base_name ++ ".txt".toList,
           pyUpper base_name ++ ".txt".toList,
           pyLower base_name ++ ".txt".toList,
           base_name ++ ".rst".toList,
           pyUpper base_name ++ ".rst".toList,
           pyLower base_name ++ ".rst".toList]
        variations.any (file_exists api pid)
    else false

/-! ## Template directory scanner (`script.py` lines 73–99) -/

/-- `match_template_patterns(filename, patterns)`: only filenames whose
lower-casing ends in `.md` can match; the lower-cased filename is then
tried against each pattern with `re.match` (the `re.IGNORECASE` flag is
immaterial because both the filename and the pattern literals are already
lower case). -/
def match_template_patterns (filename : List Char) (patterns : List RePat) : Bool :=
  if !pyEndsWith ".md".toList (pyLower filename) then false
  else patterns.any fun p => reMatch p (pyLower filename)

/-- `directory_contains_templates(project_id, template_patterns)`: lists
`.gitlab` recursively (one page), keeps the `blob` entries and tests each
name; a failed listing yields `false`. -/
def directory_contains_templates (api : Api) (pid : Nat) (patterns : List RePat) : Bool :=
  match api.tree pid with
  | none => false
  | some entries =>
    ((entries.filter fun f => f.entryKind == "blob".toList).map TreeEntry.name).any
      fun filename => match_template_patterns filename patterns

/-! ## Pagination aggregator (`script.py` lines 122–149)

The `while True` loop is embedded structurally on `fuel = 1000 - page`:
the source breaks after incrementing `page` past 1000, so the body runs for
`page = 1, …, 1000` at most, i.e. from `fuel = 999` down to `fuel = 0`, and
`fuel = 0` is exactly the `page > 1000` safety break.  The result carries
the collected items, the number of page requests issued, and whether the
safety-cap warning (`st.warning`) was emitted.
-/

structure PageResult where
  items : List Project
  requests : Nat
  warned : Bool
  deriving DecidableEq, Repr

def get_all_projects_go (fetch : Nat → Option (List Project)) :
    Nat → Nat → List Project → Nat → PageResult
  | page, fuel, acc, reqs =>
    match fetch page with
    | none => ⟨acc, reqs + 1, false⟩
    | some projects =>
      if projects.isEmpty then ⟨acc, reqs + 1, false⟩
      else if projects.length < 100 then ⟨acc ++ projects, reqs + 1, false⟩
      else
        match fuel with
        | 0 => ⟨acc ++ projects, reqs + 1, true⟩
        | fuel' + 1 => get_all_projects_go fetch (page + 1) fuel' (acc ++ projects) (reqs + 1)

/-- `get_all_projects_with_pagination(params)`, instrumented with the
request count and the warning flag; the source function's return value is
the `items` field. -/
def get_all_projects_with_pagination (fetch : Nat → Option (List Project)) : PageResult :=
  get_all_projects_go fetch 1 999 [] 0

/-! ## Input classifier (`script.py` lines 151–207) -/

set_option linter.unusedVariables false

/-- `get_contributed_projects(username)`: resolves the user by exact
username search; on success binds `user_id` to the first result's id (the
binding is present in the source and never used afterwards) and fetches the
paginated `membership=True, order_by=last_activity_at` project listing. -/
def get_contributed_projects (api : Api) (username : List Char) : List Project :=
  match api.userSearch username with
  | none => []
  | some [] => []
  | some (uid :: _) =>
    let user_id := uid
    let params : ProjParams := ⟨true, "last_activity_at".toList⟩
    (get_all_projects_with_pagination (api.projectsPage params)).items

/-- `get_project_by_id_or_url(project_input)`. -/
def get_project_by_id_or_url (api : Api) (project_input : List Char) : Option Project :=
  if pyIsDigit project_input then api.projectLookup project_input
  else if pyContains GITLAB_URL project_input then
    let path := splitHead DASH_MARKER (pyReplace GITLAB_URL_SLASH project_input)
    let encoded := pyQuote path
    match api.projectLookup encoded with
    | some p => some p
    | none => none
  else none

/-- `determine_input_type_and_process(input_value)`. -/
def determine_input_type_and_process (api : Api) (input_value : List Char) : ClassifiedInput :=
  let input := pyStrip input_value
  if pyContains GITLAB_URL input then
    match get_project_by_id_or_url api input with
    | some p => .project p
    | none => .error "Could not fetch project from the provided URL".toList
  else if pyIsDigit input then
    match get_project_by_id_or_url api input with
    | some p => .project p
    | none => .error ("No project found with ID: ".toList ++ input)
  else
    let projects := get_contributed_projects api input
    if !projects.isEmpty then .projects projects
    else .error ("No projects found for username: ".toList ++ input)

/-! ## Compliance evaluator (`script.py` lines 209–224) -/

/-- Python `bool(x)` for an optional string (`None` and `""` are falsy). -/
def pyTruthyStr : Option (List Char) → Bool
  | none => false
  | some s => !s.isEmpty

/-- Python `bool(x)` for an optional list (`None` and `[]` are falsy). -/
def pyTruthyList : Option (List (List Char)) → Bool
  | none => false
  | some l => !l.isEmpty

/-- Python `len(x)`, raising (`none`) on `None`. -/
def pyLen : Option (List (List Char)) → Option Nat
  | none => none
  | some l => some l.length

/-- The value of `bool(project.get("tag_list")) and len(project.get("tag_list")) > 0`:
the `and` short-circuits, so `len` is reached only on a truthy list. -/
def tags_present (tl : Option (List (List Char))) : Bool :=
  pyTruthyList tl && match tl with
    | none => false
    | some l => decide (l.length > 0)

/-- Exception-explicit evaluation of the same expression: `none` models an
uncaught `TypeError` from `len(None)`.  Because `and` short-circuits, the
`len` operand is evaluated only when `bool(tag_list)` is truthy. -/
def tags_present_eval (tl : Option (List (List Char))) : Option Bool :=
  if pyTruthyList tl then (pyLen tl).map fun n => decide (n > 0)
  else some false

def ISSUE_KEY : List Char := ".gitlab/issue_templates".toList
def MR_KEY : List Char := ".gitlab/merge_request_templates".toList
def DESC_KEY : List Char := "description_present".toList
def TAGS_KEY : List Char := "tags_present".toList

/-- The file/template part of the status mapping (the dict before the
project-metadata fetch), as an insertion-ordered association list. -/
def checks_status (api : Api) (pid : Nat) : List (List Char × Bool) :=
  (REQUIRED_FILES.map fun file =>
    if pyReplace ".md".toList file ∈ FLEXIBLE_EXTENSION_FILES then
      (file, file_exists_flexible api pid file)
    else
      (file, file_exists api pid file)) ++
  [(ISSUE_KEY, directory_contains_templates api pid ISSUE_TEMPLATE_PATTERNS),
   (MR_KEY, directory_contains_templates api pid MR_TEMPLATE_PATTERNS)]

/-- `get_compliance_status(project_id)`: the four file checks, the two
template checks, then the project-metadata fetch; a non-200 there discards
everything (`{}`), otherwise the two metadata flags are appended. -/
def get_compliance_status (api : Api) (pid : Nat) : List (List Char × Bool) :=
  match api.projectMeta pid with
  | none => []
  | some project =>
    checks_status api pid ++
    [(DESC_KEY, pyTruthyStr project.description),
     (TAGS_KEY, tags_present project.tag_list)]

/-- Exception-explicit variant of `get_compliance_status`: `none` models an
uncaught exception while computing `tags_present`. -/
def get_compliance_status_eval (api : Api) (pid : Nat) : Option (List (List Char × Bool)) :=
  match api.projectMeta pid with
  | none => some []
  | some project =>
    match tags_present_eval project.tag_list with
    | none => none
    | some t =>
      some (checks_status api pid ++
        [(DESC_KEY, pyTruthyStr project.description), (TAGS_KEY, t)])

/-- The fixed checklist: the eight requirement keys in insertion order. -/
def CANONICAL_KEYS : List (List Char) :=
  ["README.md".toList, "CONTRIBUTING.md".toList, "CHANGELOG.md".toList, "LICENSE".toList,
   ISSUE_KEY, MR_KEY, DESC_KEY, TAGS_KEY]

/-! ## Helper lemmas -/

/-- Evaluating the `tags_present` expression never raises: the `len`
operand is reached only behind a truthy `bool(tag_list)`. -/
lemma tags_present_eval_eq (tl : Option (List (List Char))) :
    tags_present_eval tl = some (tags_present tl) := by
  cases tl with
  | none => rfl
  | some l => cases l <;> rfl

/-- Exception-explicit and plain evaluation of the compliance status agree
(in particular the evaluator never raises). -/
lemma get_compliance_status_eval_eq (api : Api) (pid : Nat) :
    get_compliance_status_eval api pid = some (get_compliance_status api pid) := by
  cases h : api.projectMeta pid <;>
    simp [get_compliance_status_eval, get_compliance_status, h, tags_present_eval_eq]

/-- When the metadata fetch succeeds, the produced status has exactly the
eight canonical requirement keys, in insertion order. -/
lemma map_fst_get_compliance_status (api : Api) (pid : Nat) (project : Project)
    (h : api.projectMeta pid = some project) :
    (get_compliance_status api pid).map Prod.fst = CANONICAL_KEYS := by
  unfold get_compliance_status
  rw [h]
  rfl

/-- `Char.toLower` is idempotent. -/
lemma char_toLower_idem (c : Char) : c.toLower.toLower = c.toLower := by
  by_cases h : c.toNat ≥ 65 ∧ c.toNat ≤ 90
  · have h1 : c.toLower = Char.ofNat (c.toNat + 32) := by
      unfold Char.toLower
      rw [if_pos h]
    have hv : (c.toNat + 32).isValidChar := Or.inl (by omega)
    have ht : (Char.ofNat (c.toNat + 32)).toNat = c.toNat + 32 := by
      rw [Char.ofNat, dif_pos hv]
      rfl
    rw [h1]
    unfold Char.toLower
    rw [if_neg (by rw [ht]; omega)]
  · have h1 : c.toLower = c := by
      unfold Char.toLower
      rw [if_neg h]
    rw [h1]
    exact h1

/-- `pyLower` is idempotent. -/
lemma pyLower_idem (s : List Char) : pyLower (pyLower s) = pyLower s := by
  unfold pyLower
  rw [List.map_map]
  exact List.map_congr_left fun c _ => char_toLower_idem c

/-! ## C3: all-or-nothing evaluation -/

/-- C3: if the fetch of the project's own metadata record fails,
`get_compliance_status` returns the empty mapping — independently of the
outcome of the file and template checks — and in general the result is
either empty or carries the full canonical key set, never a partial one. -/
theorem claim3_metadata_fetch_failure_empty :
    (∀ (api : Api) (pid : Nat), api.projectMeta pid = none →
      get_compliance_status api pid = []) ∧
    (∀ (api : Api) (pid : Nat),
      get_compliance_status api pid = [] ∨
      (get_compliance_status api pid).map Prod.fst = CANONICAL_KEYS) := by
  constructor
  · intro api pid h
    unfold get_compliance_status
    rw [h]
  · intro api pid
    cases h : api.projectMeta pid with
    | none =>
      left
      unfold get_compliance_status
      rw [h]
    | some project =>
      right
      exact map_fst_get_compliance_status api pid project h

/-- An API state in which every file lookup and the template listing
succeed, but the project-metadata fetch returns non-200. -/
def apiMetaDown : Api where
  fileOk := fun _ _ _ => true
  tree := fun _ => some [⟨"issue_template.md".toList, "blob".toList⟩,
                         ⟨"merge_request_template.md".toList, "blob".toList⟩]
  projectMeta := fun _ => none
  userSearch := fun _ => none
  projectsPage := fun _ _ => none
  projectLookup := fun _ => none

/-- Witness for C3: under `apiMetaDown` every file and template check
succeeds, yet the evaluation result is empty. -/
theorem claim3_witness :
    (checks_status apiMetaDown 1).all Prod.snd = true ∧
    get_compliance_status apiMetaDown 1 = [] :=
  ⟨by decide, claim3_metadata_fetch_failure_empty.1 apiMetaDown 1 rfl⟩

/-! ## C4: the produced status is exactly the 8-key checklist -/

/-- C4: every non-empty status produced by `get_compliance_status` consists
of exactly the eight requirement keys — the four file names, the two
template keys and the two metadata flags — each exactly once, in order, and
nothing else. -/
theorem claim4_status_keys_exact (api : Api) (pid : Nat)
    (h : get_compliance_status api pid ≠ []) :
    (get_compliance_status api pid).map Prod.fst = CANONICAL_KEYS ∧
    (get_compliance_status api pid).length = 8 ∧
    CANONICAL_KEYS.Nodup := by
  cases hm : api.projectMeta pid with
  | none =>
    exfalso
    apply h
    unfold get_compliance_status
    rw [hm]
  | some project =>
    have hk := map_fst_get_compliance_status api pid project hm
    refine ⟨hk, ?_, by decide⟩
    have : ((get_compliance_status api pid).map Prod.fst).length = CANONICAL_KEYS.length := by
      rw [hk]
    simpa using this

/-- An API state whose metadata fetch succeeds (empty description and tag
list). -/
def apiMetaUp : Api where
  fileOk := fun _ _ _ => false
  tree := fun _ => none
  projectMeta := fun _ => some ⟨7, none, none⟩
  userSearch := fun _ => none
  projectsPage := fun _ _ => none
  projectLookup := fun _ => none

/-- Witness for C4 at a concrete API state with a successful metadata
fetch. -/
theorem claim4_witness :
    (get_compliance_status apiMetaUp 7).map Prod.fst = CANONICAL_KEYS ∧
    (get_compliance_status apiMetaUp 7).length = 8 ∧
    CANONICAL_KEYS.Nodup :=
  claim4_status_keys_exact apiMetaUp 7 (by decide)

/-! ## C10: absent or null description / tag_list are handled safely -/

/-- C10: evaluation never raises (the `len` check is only reached behind a
truthy `bool(tag_list)`), an absent/null description or tag list makes the
corresponding flag `false`, and the mapping still carries all 8 keys. -/
theorem claim10_null_metadata_safe :
    (∀ (api : Api) (pid : Nat),
      get_compliance_status_eval api pid = some (get_compliance_status api pid)) ∧
    (∀ (api : Api) (pid : Nat) (project : Project),
      api.projectMeta pid = some project →
      (project.description = none →
        (get_compliance_status api pid).lookup DESC_KEY = some false) ∧
      (project.tag_list = none →
        (get_compliance_status api pid).lookup TAGS_KEY = some false) ∧
      (get_compliance_status api pid).map Prod.fst = CANONICAL_KEYS) := by
  refine ⟨get_compliance_status_eval_eq, ?_⟩
  intro api pid project h
  refine ⟨?_, ?_, map_fst_get_compliance_status api pid project h⟩
  · intro hd
    simp only [get_compliance_status, h]
    rw [hd]
    rfl
  · intro ht
    simp only [get_compliance_status, h]
    rw [ht]
    rfl

/-- Witness for C10 at a concrete record with `description` and `tag_list`
both absent. -/
theorem claim10_witness :
    get_compliance_status_eval apiMetaUp 7 = some (get_compliance_status apiMetaUp 7) ∧
    (get_compliance_status apiMetaUp 7).lookup DESC_KEY = some false ∧
    (get_compliance_status apiMetaUp 7).lookup TAGS_KEY = some false :=
  ⟨claim10_null_metadata_safe.1 apiMetaUp 7,
   (claim10_null_metadata_safe.2 apiMetaUp 7 ⟨7, none, none⟩ rfl).1 rfl,
   (claim10_null_metadata_safe.2 apiMetaUp 7 ⟨7, none, none⟩ rfl).2.1 rfl⟩

/-! ## C5: branch probing order of `file_exists` -/

/-- An API state where every file exists on branch `main` only. -/
def apiMainOnly : Api where
  fileOk := fun _ _ branch => branch == "main".toList
  tree := fun _ => none
  projectMeta := fun _ => none
  userSearch := fun _ => none
  projectsPage := fun _ _ => none
  projectLookup := fun _ => none

/-- Counterexample to C5 as stated: with every required file present on
`main` (and absent from `master`), `file_exists` does return true, but a
probe for branch `master` is issued — the loop always tries `master`
first, so "returns true without issuing a probe for branch master" is
false. -/
theorem claim5_counterexample :
    file_exists apiMainOnly 1 "README.md".toList = true ∧
    "master".toList ∈ file_exists_probes apiMainOnly 1 "README.md".toList := by
  decide

/-- C5 (amended): when a file is present on `main`, `file_exists` returns
true (the failing `master` probe is still issued first); in general the
loop tries `master` then `main` in that fixed order, one lookup per
branch, returning true on the first 200 and false when both lookups
fail. -/
theorem claim5_branch_order_amended :
    (∀ (api : Api) (pid : Nat) (path : List Char),
      api.fileOk pid (pyQuote path) "main".toList = true →
      file_exists api pid path = true) ∧
    (∀ (api : Api) (pid : Nat) (path : List Char),
      file_exists api pid path =
        (api.fileOk pid (pyQuote path) "master".toList ||
         api.fileOk pid (pyQuote path) "main".toList)) ∧
    (∀ (api : Api) (pid : Nat) (path : List Char),
      file_exists_probes api pid path =
        if api.fileOk pid (pyQuote path) "master".toList then ["master".toList]
        else ["master".toList, "main".toList]) := by
  refine ⟨?_, ?_, ?_⟩ <;> intro api pid path <;>
    cases h1 : api.fileOk pid (pyQuote path) "master".toList <;>
    cases h2 : api.fileOk pid (pyQuote path) "main".toList <;>
    simp only [file_exists, file_exists_probes, file_exists_go, h1, h2] <;>
    simp

/-- Witness for C5 (amended) at the `main`-only API state. -/
theorem claim5_witness :
    file_exists apiMainOnly 2 "LICENSE".toList = true :=
  claim5_branch_order_amended.1 apiMainOnly 2 "LICENSE".toList (by decide)

/-! ## C7: flexible CHANGELOG resolution -/

/-- The full ordered candidate list probed by
`file_exists_flexible("CHANGELOG.md")`: the canonical path, the bare name,
then the variation list (upper, lower, and the `.txt`/`.rst`
combinations), exactly as the source enumerates them. -/
def changelogCandidates : List (List Char) :=
  ["CHANGELOG.md".toList, "CHANGELOG".toList,
   "CHANGELOG".toList, "changelog".toList,
   "CHANGELOG.txt".toList, "CHANGELOG.txt".toList, "changelog.txt".toList,
   "CHANGELOG.rst".toList, "CHANGELOG.rst".toList, "changelog.rst".toList]

/-- C7: a project containing only `changelog.txt` among the CHANGELOG
candidates makes `file_exists_flexible("CHANGELOG.md")` true; and the
resolver is exactly the short-circuiting disjunction over the fixed
ordered candidate list (canonical path first, then the bare name, then the
case variants with the alternate extensions). -/
theorem claim7_flexible_changelog :
    (∀ (api : Api) (pid : Nat),
      (∀ q ∈ changelogCandidates, q ≠ "changelog.txt".toList →
        file_exists api pid q = false) →
      file_exists api pid "changelog.txt".toList = true →
      file_exists_flexible api pid "CHANGELOG.md".toList = true) ∧
    (∀ (api : Api) (pid : Nat),
      file_exists_flexible api pid "CHANGELOG.md".toList =
        changelogCandidates.any (file_exists api pid)) := by
  have hunfold : ∀ (api : Api) (pid : Nat),
      file_exists_flexible api pid "CHANGELOG.md".toList =
        (if file_exists api pid "CHANGELOG.md".toList then true
         else if file_exists api pid "CHANGELOG".toList then true
         else ["CHANGELOG".toList, "changelog".toList,
               "CHANGELOG.txt".toList, "CHANGELOG.txt".toList, "changelog.txt".toList,
               "CHANGELOG.rst".toList, "CHANGELOG.rst".toList, "changelog.rst".toList].any
                 (file_exists api pid)) :=
    fun _ _ => rfl
  have hmain : ∀ (api : Api) (pid : Nat),
      file_exists_flexible api pid "CHANGELOG.md".toList =
        changelogCandidates.any (file_exists api pid) := by
    intro api pid
    rw [hunfold]
    cases h1 : file_exists api pid "CHANGELOG.md".toList <;>
      cases h2 : file_exists api pid "CHANGELOG".toList <;>
        simp only [changelogCandidates, List.any_cons, List.any_nil, h1, h2] <;> simp
  refine ⟨?_, hmain⟩
  intro api pid _ hex
  rw [hmain]
  exact List.any_eq_true.mpr ⟨"changelog.txt".toList, by decide, hex⟩

/-- An API state in which `changelog.txt` is the only existing file. -/
def apiChangelogTxt : Api where
  fileOk := fun _ qpath _ => qpath == pyQuote "changelog.txt".toList
  tree := fun _ => none
  projectMeta := fun _ => none
  userSearch := fun _ => none
  projectsPage := fun _ _ => none
  projectLookup := fun _ => none

/-- Witness for C7: the lowercase `.txt` changelog alone satisfies the
flexible canonical `CHANGELOG.md` check. -/
theorem claim7_witness :
    file_exists_flexible apiChangelogTxt 1 "CHANGELOG.md".toList = true :=
  claim7_flexible_changelog.1 apiChangelogTxt 1 (by decide) (by decide)

/-! ## C1: template pattern matching on the demo directory listing -/

/-- The directory listing of the spec's example: three blob entries. -/
def demoListing : List TreeEntry :=
  [⟨"0001-bug-issue-template.md".toList, "blob".toList⟩,
   ⟨"random.md".toList, "blob".toList⟩,
   ⟨"merge_request_template.MD".toList, "blob".toList⟩]

/-- An API state whose `.gitlab` tree listing returns the demo listing. -/
def apiDemoTree : Api where
  fileOk := fun _ _ _ => false
  tree := fun _ => some demoListing
  projectMeta := fun _ => none
  userSearch := fun _ => none
  projectsPage := fun _ _ => none
  projectLookup := fun _ => none

/-- Counterexample to C1 as stated: on the listing
`["0001-bug-issue-template.md", "random.md", "merge_request_template.MD"]`
the issue-template matching returns `false`, not `true`: every issue
pattern is applied with `re.match`, which anchors at the start of the
filename, and no filename in the listing starts with `issue` or
`issuetemplate`. -/
theorem claim1_counterexample :
    directory_contains_templates apiDemoTree 1 ISSUE_TEMPLATE_PATTERNS = false ∧
    match_template_patterns "0001-bug-issue-template.md".toList ISSUE_TEMPLATE_PATTERNS
      = false := by
  decide

/-- C1 (amended): on the demo listing merge-request matching returns true
while issue-template matching returns false (the patterns are start-anchored
by `re.match` and no listed filename begins with an issue pattern literal);
for every filename, matching is case-insensitive (lower-casing the filename
does not change the result) but a filename whose lower-casing does not end
in `.md` never matches. -/
theorem claim1_template_matching_amended :
    directory_contains_templates apiDemoTree 1 MR_TEMPLATE_PATTERNS = true ∧
    directory_contains_templates apiDemoTree 1 ISSUE_TEMPLATE_PATTERNS = false ∧
    (∀ (filename : List Char) (patterns : List RePat),
      pyEndsWith ".md".toList (pyLower filename) = false →
      match_template_patterns filename patterns = false) ∧
    (∀ (filename : List Char) (patterns : List RePat),
      match_template_patterns (pyLower filename) patterns =
        match_template_patterns filename patterns) := by
  refine ⟨by decide, by decide, ?_, ?_⟩
  · intro filename patterns h
    simp only [match_template_patterns, h]
    rfl
  · intro filename patterns
    simp only [match_template_patterns, pyLower_idem]

/-- Witness for C1 (amended): a `.txt` template filename never matches, and
matching an upper-case variant agrees with matching its lower-casing. -/
theorem claim1_witness :
    match_template_patterns "issue_template.txt".toList ISSUE_TEMPLATE_PATTERNS = false ∧
    match_template_patterns (pyLower "Issue_Template.md".toList) ISSUE_TEMPLATE_PATTERNS =
      match_template_patterns "Issue_Template.md".toList ISSUE_TEMPLATE_PATTERNS :=
  ⟨claim1_template_matching_amended.2.2.1 "issue_template.txt".toList
      ISSUE_TEMPLATE_PATTERNS (by decide),
   claim1_template_matching_amended.2.2.2 "Issue_Template.md".toList ISSUE_TEMPLATE_PATTERNS⟩


/-! ## Pagination lemmas (for C6 and C9) -/

/-- One-step unfolding of the pagination loop: a failed page request stops
and keeps what was collected. -/
lemma go_fetch_none (fetch : Nat → Option (List Project)) (page fuel : Nat)
    (acc : List Project) (reqs : Nat) (h : fetch page = none) :
    get_all_projects_go fetch page fuel acc reqs = ⟨acc, reqs + 1, false⟩ := by
  simp [get_all_projects_go, h]

/-- One-step unfolding: an empty page stops. -/
lemma go_fetch_empty (fetch : Nat → Option (List Project)) (page fuel : Nat)
    (acc : List Project) (reqs : Nat) (h : fetch page = some []) :
    get_all_projects_go fetch page fuel acc reqs = ⟨acc, reqs + 1, false⟩ := by
  simp [get_all_projects_go, h]

/-- One-step unfolding: a page with fewer than 100 items is appended and
the loop stops. -/
lemma go_fetch_small (fetch : Nat → Option (List Project)) (page fuel : Nat)
    (acc : List Project) (reqs : Nat) (l : List Project)
    (h : fetch page = some l) (h1 : l ≠ []) (h2 : l.length < 100) :
    get_all_projects_go fetch page fuel acc reqs = ⟨acc ++ l, reqs + 1, false⟩ := by
  have h1' : l.isEmpty = false := by
    cases l
    · exact absurd rfl h1
    · rfl
  simp [get_all_projects_go, h, h1', h2]

/-- One-step unfolding: a full page with exhausted fuel (`page = 1000` in
the source) is appended, the warning is emitted and the loop stops. -/
lemma go_fetch_cap (fetch : Nat → Option (List Project)) (page : Nat)
    (acc : List Project) (reqs : Nat) (l : List Project)
    (h : fetch page = some l) (h2 : ¬ l.length < 100) :
    get_all_projects_go fetch page 0 acc reqs = ⟨acc ++ l, reqs + 1, true⟩ := by
  have h1' : l.isEmpty = false := by
    cases l
    · exact absurd (by simp) h2
    · rfl
  simp [get_all_projects_go, h, h1', h2]

/-- One-step unfolding: a full page with remaining fuel is appended and the
loop continues with the next page. -/
lemma go_fetch_step (fetch : Nat → Option (List Project)) (page fuel : Nat)
    (acc : List Project) (reqs : Nat) (l : List Project)
    (h : fetch page = some l) (h2 : ¬ l.length < 100) :
    get_all_projects_go fetch page (fuel + 1) acc reqs =
      get_all_projects_go fetch (page + 1) fuel (acc ++ l) (reqs + 1) := by
  have h1' : l.isEmpty = false := by
    cases l
    · exact absurd (by simp) h2
    · rfl
  conv_lhs => rw [get_all_projects_go]
  simp [h, h1', h2]

/-- Under a constant full-page endpoint the loop runs the full fuel, emits
the warning, and collects one page per request. -/
lemma go_const_full (l0 : List Project) (h2 : ¬ l0.length < 100) :
    ∀ (fuel page : Nat) (acc : List Project) (reqs : Nat),
      (get_all_projects_go (fun _ => some l0) page fuel acc reqs).items.length =
        acc.length + (fuel + 1) * l0.length ∧
      (get_all_projects_go (fun _ => some l0) page fuel acc reqs).requests =
        reqs + fuel + 1 ∧
      (get_all_projects_go (fun _ => some l0) page fuel acc reqs).warned = true := by
  intro fuel
  induction fuel with
  | zero =>
    intro page acc reqs
    rw [go_fetch_cap (fun _ => some l0) page acc reqs l0 rfl h2]
    refine ⟨?_, ?_, rfl⟩
    · show (acc ++ l0).length = acc.length + (0 + 1) * l0.length
      rw [List.length_append]
      ring
    · show reqs + 1 = reqs + 0 + 1
      omega
  | succ n ih =>
    intro page acc reqs
    rw [go_fetch_step (fun _ => some l0) page n acc reqs l0 rfl h2]
    obtain ⟨hi, hr, hw⟩ := ih (page + 1) (acc ++ l0) (reqs + 1)
    refine ⟨?_, ?_, hw⟩
    · rw [hi, List.length_append]
      ring
    · rw [hr]
      omega

/-- The aggregator issues at most `fuel + 1` page requests beyond the
`reqs` already counted. -/
lemma go_requests_le (fetch : Nat → Option (List Project)) :
    ∀ (fuel page : Nat) (acc : List Project) (reqs : Nat),
      (get_all_projects_go fetch page fuel acc reqs).requests ≤ reqs + fuel + 1 := by
  intro fuel
  induction fuel with
  | zero =>
    intro page acc reqs
    cases h : fetch page with
    | none =>
      rw [go_fetch_none fetch page 0 acc reqs h]
    | some l =>
      rcases eq_or_ne l [] with rfl | hne
      · rw [go_fetch_empty fetch page 0 acc reqs h]
      · by_cases hlen : l.length < 100
        · rw [go_fetch_small fetch page 0 acc reqs l h hne hlen]
        · rw [go_fetch_cap fetch page acc reqs l h hlen]
  | succ n ih =>
    intro page acc reqs
    cases h : fetch page with
    | none =>
      rw [go_fetch_none fetch page (n + 1) acc reqs h]
      show reqs + 1 ≤ reqs + (n + 1) + 1
      omega
    | some l =>
      rcases eq_or_ne l [] with rfl | hne
      · rw [go_fetch_empty fetch page (n + 1) acc reqs h]
        show reqs + 1 ≤ reqs + (n + 1) + 1
        omega
      · by_cases hlen : l.length < 100
        · rw [go_fetch_small fetch page (n + 1) acc reqs l h hne hlen]
          show reqs + 1 ≤ reqs + (n + 1) + 1
          omega
        · rw [go_fetch_step fetch page n acc reqs l h hlen]
          calc (get_all_projects_go fetch (page + 1) n (acc ++ l) (reqs + 1)).requests
              ≤ (reqs + 1) + n + 1 := ih (page + 1) (acc ++ l) (reqs + 1)
            _ ≤ reqs + (n + 1) + 1 := by omega

/-- When every successful page response carries at most 100 items, the
aggregator collects at most `(fuel + 1) * 100` items beyond `acc`. -/
lemma go_items_le (fetch : Nat → Option (List Project))
    (hb : ∀ (p : Nat) (l : List Project), fetch p = some l → l.length ≤ 100) :
    ∀ (fuel page : Nat) (acc : List Project) (reqs : Nat),
      (get_all_projects_go fetch page fuel acc reqs).items.length ≤
        acc.length + (fuel + 1) * 100 := by
  intro fuel
  induction fuel with
  | zero =>
    intro page acc reqs
    cases h : fetch page with
    | none =>
      rw [go_fetch_none fetch page 0 acc reqs h]
      show acc.length ≤ acc.length + (0 + 1) * 100
      omega
    | some l =>
      have hl := hb page l h
      rcases eq_or_ne l [] with rfl | hne
      · rw [go_fetch_empty fetch page 0 acc reqs h]
        show acc.length ≤ acc.length + (0 + 1) * 100
        omega
      · by_cases hlen : l.length < 100
        · rw [go_fetch_small fetch page 0 acc reqs l h hne hlen]
          show (acc ++ l).length ≤ acc.length + (0 + 1) * 100
          rw [List.length_append]
          omega
        · rw [go_fetch_cap fetch page acc reqs l h hlen]
          show (acc ++ l).length ≤ acc.length + (0 + 1) * 100
          rw [List.length_append]
          omega
  | succ n ih =>
    intro page acc reqs
    cases h : fetch page with
    | none =>
      rw [go_fetch_none fetch page (n + 1) acc reqs h]
      show acc.length ≤ acc.length + (n + 1 + 1) * 100
      omega
    | some l =>
      have hl := hb page l h
      rcases eq_or_ne l [] with rfl | hne
      · rw [go_fetch_empty fetch page (n + 1) acc reqs h]
        show acc.length ≤ acc.length + (n + 1 + 1) * 100
        omega
      · by_cases hlen : l.length < 100
        · rw [go_fetch_small fetch page (n + 1) acc reqs l h hne hlen]
          show (acc ++ l).length ≤ acc.length + (n + 1 + 1) * 100
          rw [List.length_append]
          omega
        · rw [go_fetch_step fetch page n acc reqs l h hlen]
          calc (get_all_projects_go fetch (page + 1) n (acc ++ l) (reqs + 1)).items.length
              ≤ (acc ++ l).length + (n + 1) * 100 := ih (page + 1) (acc ++ l) (reqs + 1)
            _ ≤ acc.length + (n + 1 + 1) * 100 := by
                rw [List.length_append]
                omega

/-! ## C6: pagination behaviour -/

/-- A distinct project per natural number. -/
def mkProj (n : Nat) : Project := ⟨n, none, none⟩

/-- A mock listing endpoint holding exactly 250 items, served in pages of
(at most) 100. -/
def fetch250 (page : Nat) : Option (List Project) :=
  some ((((List.range 250).drop ((page - 1) * 100)).take 100).map mkProj)

set_option maxRecDepth 4000 in
/-- C6: on the 250-item mock endpoint the aggregator returns all 250 items
(no duplicates) in exactly 3 page requests without the cap warning; in
general it stops on a page of fewer than 100 items, stops on a failed
request keeping what was collected, and a constant full-page endpoint runs
to the 1000-page safety cap with the warning emitted. -/
theorem claim6_pagination_aggregation :
    get_all_projects_with_pagination fetch250 =
      ⟨(List.range 250).map mkProj, 3, false⟩ ∧
    ((List.range 250).map mkProj).Nodup ∧
    (∀ (fetch : Nat → Option (List Project)) (page fuel : Nat)
       (acc : List Project) (reqs : Nat), fetch page = none →
      get_all_projects_go fetch page fuel acc reqs = ⟨acc, reqs + 1, false⟩) ∧
    (∀ (fetch : Nat → Option (List Project)) (page fuel : Nat)
       (acc : List Project) (reqs : Nat) (l : List Project),
      fetch page = some l → l ≠ [] → l.length < 100 →
      get_all_projects_go fetch page fuel acc reqs = ⟨acc ++ l, reqs + 1, false⟩) ∧
    (∀ l0 : List Project, ¬ l0.length < 100 →
      (get_all_projects_with_pagination (fun _ => some l0)).requests = 1000 ∧
      (get_all_projects_with_pagination (fun _ => some l0)).warned = true) := by
  refine ⟨by decide, by decide, go_fetch_none, go_fetch_small, ?_⟩
  intro l0 h2
  obtain ⟨_, hr, hw⟩ := go_const_full l0 h2 999 1 [] 0
  exact ⟨hr, hw⟩

set_option maxRecDepth 4000 in
/-- Witness for C6: the failed-request stop applied at an endpoint that
fails immediately, and the small-page stop applied at page 3 of the mock
endpoint. -/
theorem claim6_witness :
    get_all_projects_go (fun _ => none) 1 999 [] 0 = ⟨[], 1, false⟩ ∧
    get_all_projects_go fetch250 3 997 ((List.range 200).map mkProj) 2 =
      ⟨(List.range 200).map mkProj ++ ((List.range 50).map fun n => mkProj (200 + n)),
        3, false⟩ := by
  constructor
  · exact claim6_pagination_aggregation.2.2.1 (fun _ => none) 1 999 [] 0 rfl
  · exact claim6_pagination_aggregation.2.2.2.1 fetch250 3 997
      ((List.range 200).map mkProj) 2 ((List.range 50).map fun n => mkProj (200 + n))
      (by decide) (by decide) (by decide)

/-! ## C9: termination and resource bounds -/

/-- An adversarial endpoint whose pages carry 101 items each: the request
asks for `per_page = 100`, but the loop appends whatever list comes back
and only compares its length against 100. -/
def bigPageFetch : Nat → Option (List Project) := fun _ => some ((List.range 101).map mkProj)

set_option maxRecDepth 2000 in
/-- Counterexample to C9 as stated: against an endpoint answering every
page with 101 items, the aggregator returns 101000 items — more than the
claimed 100000-item bound. -/
theorem claim9_counterexample :
    (get_all_projects_with_pagination bigPageFetch).items.length = 101000 ∧
    100000 < (get_all_projects_with_pagination bigPageFetch).items.length := by
  have h : (get_all_projects_with_pagination bigPageFetch).items.length =
      ([] : List Project).length + (999 + 1) * ((List.range 101).map mkProj).length :=
    (go_const_full ((List.range 101).map mkProj) (by decide) 999 1 [] 0).1
  have h' : (get_all_projects_with_pagination bigPageFetch).items.length = 101000 :=
    h.trans (by decide)
  exact ⟨h', by rw [h']; decide⟩

/-- C9 (amended): for every sequence of API responses the aggregator
terminates after at most 1000 page requests; and whenever every successful
response carries at most 100 items (as a conforming `per_page = 100`
endpoint does), it returns at most 100000 items. -/
theorem claim9_pagination_bounds_amended :
    (∀ fetch : Nat → Option (List Project),
      (get_all_projects_with_pagination fetch).requests ≤ 1000) ∧
    (∀ fetch : Nat → Option (List Project),
      (∀ (p : Nat) (l : List Project), fetch p = some l → l.length ≤ 100) →
      (get_all_projects_with_pagination fetch).items.length ≤ 100000) := by
  constructor
  · intro fetch
    have h := go_requests_le fetch 999 1 [] 0
    exact h.trans (by omega)
  · intro fetch hb
    have h := go_items_le fetch hb 999 1 [] 0
    exact h.trans (by simp)

/-- Witness for C9 (amended) at the 250-item mock endpoint, whose pages
all carry at most 100 items. -/
theorem claim9_witness :
    (get_all_projects_with_pagination fetch250).requests ≤ 1000 ∧
    (get_all_projects_with_pagination fetch250).items.length ≤ 100000 :=
  ⟨claim9_pagination_bounds_amended.1 fetch250,
   claim9_pagination_bounds_amended.2 fetch250 (by
    intro p l h
    cases h
    simp)⟩

/-! ## C2: username classification ignores the resolved user -/

/-- C2 (code evaluation): after a successful exact-username search,
`get_contributed_projects` queries the `membership=True,
order_by=last_activity_at` project listing with no user filter — the
`user_id` it just resolved does not occur in the request — so the result is
the same whatever user (if any) the username resolved to.  In particular,
two usernames resolving to different users receive identical project
lists. -/
theorem claim2_user_id_ignored :
    (∀ (api : Api) (u : List Char) (a : Nat) (r : List Nat),
      api.userSearch u = some (a :: r) →
      get_contributed_projects api u =
        (get_all_projects_with_pagination
          (api.projectsPage ⟨true, "last_activity_at".toList⟩)).items) ∧
    (∀ (api : Api) (u v : List Char),
      (∃ (a : Nat) (r : List Nat), api.userSearch u = some (a :: r)) →
      (∃ (b : Nat) (r' : List Nat), api.userSearch v = some (b :: r')) →
      get_contributed_projects api u = get_contributed_projects api v) := by
  have h1 : ∀ (api : Api) (u : List Char) (a : Nat) (r : List Nat),
      api.userSearch u = some (a :: r) →
      get_contributed_projects api u =
        (get_all_projects_with_pagination
          (api.projectsPage ⟨true, "last_activity_at".toList⟩)).items := by
    intro api u a r h
    simp only [get_contributed_projects, h]
  refine ⟨h1, ?_⟩
  intro api u v hu hv
  obtain ⟨a, r, hu⟩ := hu
  obtain ⟨b, r', hv⟩ := hv
  rw [h1 api u a r hu, h1 api v b r' hv]

/-- An API state with two distinct users (`alice` has id 1, `bob` id 2)
and a one-page project listing. -/
def apiTwoUsers : Api where
  fileOk := fun _ _ _ => false
  tree := fun _ => none
  projectMeta := fun _ => none
  userSearch := fun u =>
    if u == "alice".toList then some [1]
    else if u == "bob".toList then some [2] else none
  projectsPage := fun _ page => if page == 1 then some [mkProj 42] else none
  projectLookup := fun _ => none

/-- Witness for C2: the two distinct users receive the same project list
(the listing that the API serves for the token user's own membership). -/
theorem claim2_witness :
    get_contributed_projects apiTwoUsers "alice".toList =
      get_contributed_projects apiTwoUsers "bob".toList ∧
    get_contributed_projects apiTwoUsers "alice".toList = [mkProj 42] :=
  ⟨claim2_user_id_ignored.2 apiTwoUsers "alice".toList "bob".toList
      ⟨1, [], rfl⟩ ⟨2, [], rfl⟩,
   by decide⟩

/-! ## String lemmas for the URL classifier (C8) -/

/-- A string that starts with `pat` contains `pat`. -/
lemma pyContains_prefixed (pat t : List Char) (hp : pat ≠ []) :
    pyContains pat (pat ++ t) = true := by
  cases pat with
  | nil => exact absurd rfl hp
  | cons c p' =>
    show (((c :: (p' ++ t)).take (c :: p').length == c :: p') || pyContains (c :: p') (p' ++ t)) = true
    rw [← List.cons_append, List.take_left, beq_self_eq_true]
    rfl

/-- A string whose first character is not a digit is not numeric. -/
lemma pyIsDigit_cons_false (c : Char) (t : List Char) (h : c.isDigit = false) :
    pyIsDigit (c :: t) = false := by
  simp [pyIsDigit, h]

/-- Left-stripping a string that starts with a non-whitespace character
does nothing. -/
lemma pyLStrip_cons (c : Char) (t : List Char) (h : c.isWhitespace = false) :
    pyLStrip (c :: t) = c :: t := by
  simp [pyLStrip, List.dropWhile_cons, h]

/-- Stripping a string that starts with a non-whitespace character only
right-strips it. -/
lemma pyStrip_cons (c : Char) (t : List Char) (h : c.isWhitespace = false) :
    pyStrip (c :: t) = pyRStrip (c :: t) := by
  unfold pyStrip
  rw [pyLStrip_cons c t h]

/-- Right-stripping does nothing to a string ending in a non-whitespace
character. -/
lemma pyRStrip_eq_self (a : List Char) (c : Char) (ha : a.getLast? = some c)
    (hc : c.isWhitespace = false) : pyRStrip a = a := by
  have hrev : a.reverse.head? = some c := by rw [List.head?_reverse, ha]
  unfold pyRStrip
  cases hr : a.reverse with
  | nil => rw [hr] at hrev; exact absurd hrev (by simp)
  | cons d r =>
    rw [hr] at hrev
    have hdw : d.isWhitespace = false := by
      rw [show d = c by simpa using hrev]
      exact hc
    rw [List.dropWhile_cons, hdw]
    simp only [Bool.false_eq_true, if_false]
    rw [← hr, List.reverse_reverse]

/-- Right-stripping past an append whose left part ends in a
non-whitespace character only strips the right part. -/
lemma pyRStrip_append (a b : List Char) (c : Char) (ha : a.getLast? = some c)
    (hc : c.isWhitespace = false) : pyRStrip (a ++ b) = a ++ pyRStrip b := by
  have hrev : a.reverse.head? = some c := by rw [List.head?_reverse, ha]
  unfold pyRStrip
  rw [List.reverse_append, List.dropWhile_append]
  by_cases hb : (b.reverse.dropWhile Char.isWhitespace).isEmpty = true
  · rw [if_pos hb]
    have hbnil : b.reverse.dropWhile Char.isWhitespace = [] := by
      simpa using hb
    rw [hbnil]
    cases hr : a.reverse with
    | nil => rw [hr] at hrev; exact absurd hrev (by simp)
    | cons d r =>
      rw [hr] at hrev
      have hdw : d.isWhitespace = false := by
        rw [show d = c by simpa using hrev]
        exact hc
      rw [List.dropWhile_cons, hdw]
      simp only [Bool.false_eq_true, if_false]
      rw [← hr, List.reverse_reverse, List.reverse_nil, List.append_nil]
  · rw [if_neg hb]
    rw [List.reverse_append, List.reverse_reverse]

/-- The fuel argument of `pyReplaceGo` is irrelevant once it covers the
length of the string. -/
lemma pyReplaceGo_fuel (pat : List Char) :
    ∀ (f₁ : Nat), ∀ (f₂ : Nat) (s : List Char), s.length ≤ f₁ → s.length ≤ f₂ →
      pyReplaceGo pat f₁ s = pyReplaceGo pat f₂ s := by
  intro f₁
  induction f₁ with
  | zero =>
    intro f₂ s h1 h2
    have : s = [] := List.eq_nil_of_length_eq_zero (by omega)
    subst this
    cases f₂ <;> rfl
  | succ n ih =>
    intro f₂ s h1 h2
    cases s with
    | nil => cases f₂ <;> rfl
    | cons c rest =>
      have hlen : rest.length + 1 ≤ f₂ := by simpa using h2
      cases f₂ with
      | zero => omega
      | succ m =>
        show (if !pat.isEmpty && ((c :: rest).take pat.length == pat) then
                pyReplaceGo pat n ((c :: rest).drop pat.length)
              else c :: pyReplaceGo pat n rest) =
             (if !pat.isEmpty && ((c :: rest).take pat.length == pat) then
                pyReplaceGo pat m ((c :: rest).drop pat.length)
              else c :: pyReplaceGo pat m rest)
        by_cases hcond : (!pat.isEmpty && ((c :: rest).take pat.length == pat)) = true
        · rw [if_pos hcond, if_pos hcond]
          have hpat : pat ≠ [] := by
            have hcc := hcond
            simp only [Bool.and_eq_true] at hcc
            intro hnil
            rw [hnil] at hcc
            exact absurd hcc.1 (by decide)
          have hplen : 1 ≤ pat.length := by
            cases pat
            · exact absurd rfl hpat
            · simp
          apply ih
          · rw [List.length_drop]
            simp only [List.length_cons] at h1 ⊢
            omega
          · rw [List.length_drop]
            simp only [List.length_cons]
            omega
        · rw [if_neg hcond, if_neg hcond]
          have h1' : rest.length ≤ n := by
            simp only [List.length_cons] at h1
            omega
          rw [ih m rest h1' (by omega)]

/-- The one-step unfolding equation for `pyReplace` on a cons cell. -/
lemma pyReplace_cons (pat : List Char) (c : Char) (rest : List Char) :
    pyReplace pat (c :: rest) =
      if !pat.isEmpty && ((c :: rest).take pat.length == pat) then
        pyReplace pat ((c :: rest).drop pat.length)
      else c :: pyReplace pat rest := by
  show (if !pat.isEmpty && ((c :: rest).take pat.length == pat) then
          pyReplaceGo pat rest.length ((c :: rest).drop pat.length)
        else c :: pyReplaceGo pat rest.length rest) = _
  by_cases hcond : (!pat.isEmpty && ((c :: rest).take pat.length == pat)) = true
  · rw [if_pos hcond, if_pos hcond]
    have hpat : 1 ≤ pat.length := by
      have hcc := hcond
      simp only [Bool.and_eq_true] at hcc
      cases pat
      · exact absurd hcc.1 (by decide)
      · simp
    apply pyReplaceGo_fuel
    · rw [List.length_drop]
      simp only [List.length_cons]
      omega
    · exact le_refl _
  · rw [if_neg hcond, if_neg hcond]
    rfl

/-- `pyReplace` removes a leading occurrence of the pattern. -/
lemma pyReplace_strip_gitlab (t : List Char) :
    pyReplace GITLAB_URL_SLASH (GITLAB_URL_SLASH ++ t) = pyReplace GITLAB_URL_SLASH t := by
  have h : GITLAB_URL_SLASH ++ t =
      'h' :: ("ttps://code.swecha.org/".toList ++ t) := rfl
  rw [h, pyReplace_cons]
  rw [show 'h' :: ("ttps://code.swecha.org/".toList ++ t) = GITLAB_URL_SLASH ++ t from rfl]
  rw [List.take_left, List.drop_left]
  rw [if_pos (by rw [beq_self_eq_true]; rfl)]

/-- Extracting one element from a successful 24-character prefix match of
the base-URL pattern. -/
lemma take_gitlab_elem (x : List Char)
    (heq : x.take GITLAB_URL_SLASH.length = GITLAB_URL_SLASH) (i : Nat) (hi : i < 24) :
    x[i]? = GITLAB_URL_SLASH[i]? := by
  have h := congrArg (fun l => l[i]?) heq
  simp only at h
  rw [List.getElem?_take, if_pos (show i < GITLAB_URL_SLASH.length from hi)] at h
  exact h

/-- No occurrence of the base-URL pattern can start inside a colon-free
region `u` that is followed by `[]` or by a slash: the pattern has `':'` at
index 5 and no slash among indices 1–5. -/
lemma gitlab_take_ne_no_colon (u v : List Char) (hu : ∀ c ∈ u, c ≠ ':') (hne : u ≠ [])
    (hv : v = [] ∨ v.head? = some '/') :
    (((u ++ v).take GITLAB_URL_SLASH.length) == GITLAB_URL_SLASH) = false := by
  rw [beq_eq_false_iff_ne]
  intro heq
  have hlen1 : 1 ≤ u.length := by
    cases u
    · exact absurd rfl hne
    · simp
  by_cases hul : 6 ≤ u.length
  · have h5 := take_gitlab_elem (u ++ v) heq 5 (by omega)
    rw [List.getElem?_append, if_pos (by omega)] at h5
    have hcolon : GITLAB_URL_SLASH[5]? = some ':' := by decide
    rw [hcolon] at h5
    exact hu ':' (List.getElem?_mem h5) rfl
  · have hu5 : u.length ≤ 5 := by omega
    have hL := take_gitlab_elem (u ++ v) heq u.length (by omega)
    rw [List.getElem?_append_right (le_refl _), Nat.sub_self] at hL
    rcases hv with rfl | hv
    · have hsome : ∀ i < 6, (GITLAB_URL_SLASH[i]?).isSome = true := by decide
      have hs := hsome u.length (by omega)
      rw [← hL] at hs
      simp at hs
    · have hv0 : v[0]? = some '/' := by
        cases v
        · simp at hv
        · simpa using hv
      rw [hv0] at hL
      have hno : ∀ i < 6, 1 ≤ i → GITLAB_URL_SLASH[i]? ≠ some '/' := by decide
      exact hno u.length (by omega) hlen1 hL.symm

/-- Replacing the base-URL pattern leaves a colon-free region untouched
when what follows is empty or starts with a slash. -/
lemma pyReplace_base_append (u v : List Char) (hu : ∀ c ∈ u, c ≠ ':')
    (hv : v = [] ∨ v.head? = some '/') :
    pyReplace GITLAB_URL_SLASH (u ++ v) = u ++ pyReplace GITLAB_URL_SLASH v := by
  induction u with
  | nil => simp
  | cons c u' ih =>
    rw [List.cons_append, pyReplace_cons]
    have htk : (((c :: (u' ++ v)).take GITLAB_URL_SLASH.length) == GITLAB_URL_SLASH)
        = false :=
      gitlab_take_ne_no_colon (c :: u') v hu (by simp) hv
    rw [htk, Bool.and_false]
    simp only [Bool.false_eq_true, if_false]
    rw [ih (fun d hd => hu d (List.mem_cons_of_mem _ hd))]
    rfl

/-- Replacing the base-URL pattern walks over a character other than `'h'`. -/
lemma pyReplace_cons_ne_h (c : Char) (rest : List Char) (hc : c ≠ 'h') :
    pyReplace GITLAB_URL_SLASH (c :: rest) = c :: pyReplace GITLAB_URL_SLASH rest := by
  rw [pyReplace_cons]
  have htk : (((c :: rest).take GITLAB_URL_SLASH.length) == GITLAB_URL_SLASH) = false := by
    rw [beq_eq_false_iff_ne]
    intro heq
    have h0 := take_gitlab_elem (c :: rest) heq 0 (by omega)
    have hh : GITLAB_URL_SLASH[0]? = some 'h' := by decide
    rw [hh] at h0
    simp at h0
    exact hc h0
  rw [htk, Bool.and_false]
  simp only [Bool.false_eq_true, if_false]

/-- Replacing the base-URL pattern leaves the dash marker in place. -/
lemma pyReplace_dash_head (s : List Char) :
    pyReplace GITLAB_URL_SLASH (DASH_MARKER ++ s) =
      DASH_MARKER ++ pyReplace GITLAB_URL_SLASH s := by
  show pyReplace GITLAB_URL_SLASH ('/' :: '-' :: '/' :: s) = _
  rw [pyReplace_cons_ne_h '/' ('-' :: '/' :: s) (by decide),
      pyReplace_cons_ne_h '-' ('/' :: s) (by decide),
      pyReplace_cons_ne_h '/' s (by decide)]
  rfl

/-- The dash-marker condition on a three-character window, as a
propositional test. -/
lemma dash_take_cond (c d e : Char) (rest : List Char) :
    (((c :: d :: e :: rest).take DASH_MARKER.length) == DASH_MARKER) =
      decide (c = '/' ∧ d = '-' ∧ e = '/') := by
  show (([c, d, e] : List Char) == DASH_MARKER) = _
  by_cases hc : c = '/' <;> by_cases hd : d = '-' <;> by_cases he : e = '/' <;>
    simp [hc, hd, he, DASH_MARKER]

/-- One-step unfolding of `splitHead` at the dash marker on a string of
length at least three. -/
lemma splitHead_dash_cons3 (c d e : Char) (rest : List Char) :
    splitHead DASH_MARKER (c :: d :: e :: rest) =
      if c = '/' ∧ d = '-' ∧ e = '/' then [] else c :: splitHead DASH_MARKER (d :: e :: rest) := by
  show (if (((c :: d :: e :: rest).take DASH_MARKER.length) == DASH_MARKER) then ([] : List Char)
        else c :: splitHead DASH_MARKER (d :: e :: rest)) = _
  rw [dash_take_cond]
  by_cases h : c = '/' ∧ d = '-' ∧ e = '/' <;> simp [h]

/-- A single character holds no dash marker. -/
lemma splitHead_dash_one (c : Char) : splitHead DASH_MARKER [c] = [c] := by
  show (if ((([c] : List Char).take DASH_MARKER.length) == DASH_MARKER) then ([] : List Char)
        else c :: splitHead DASH_MARKER []) = [c]
  have hb : ((([c] : List Char).take DASH_MARKER.length) == DASH_MARKER) = false := by
    show (([c] : List Char) == DASH_MARKER) = false
    rw [show DASH_MARKER = '/' :: ['-', '/'] from rfl, List.cons_beq_cons]
    simp
  rw [hb]
  simp
  rfl

/-- Two characters hold no dash marker. -/
lemma splitHead_dash_two (c d : Char) : splitHead DASH_MARKER [c, d] = [c, d] := by
  show (if ((([c, d] : List Char).take DASH_MARKER.length) == DASH_MARKER) then ([] : List Char)
        else c :: splitHead DASH_MARKER [d]) = [c, d]
  rw [splitHead_dash_one]
  have hb : ((([c, d] : List Char).take DASH_MARKER.length) == DASH_MARKER) = false := by
    show (([c, d] : List Char) == DASH_MARKER) = false
    rw [show DASH_MARKER = '/' :: '-' :: ['/'] from rfl, List.cons_beq_cons,
      List.cons_beq_cons]
    simp
  rw [hb]
  simp

/-- Splitting at the first dash marker ignores everything after an
appended marker, provided the prefix does not end in slash-dash (no
occurrence straddles the junction). -/
lemma splitHead_append_marker (t : List Char) :
    ∀ p : List Char, ¬ (['/', '-'] <:+ p) →
      splitHead DASH_MARKER (p ++ DASH_MARKER ++ t) = splitHead DASH_MARKER p := by
  intro p
  induction p with
  | nil =>
    intro _
    show splitHead DASH_MARKER ('/' :: '-' :: '/' :: t) = []
    rw [splitHead_dash_cons3]
    simp
  | cons c p' ih =>
    intro hsuf
    cases p' with
    | nil =>
      show splitHead DASH_MARKER (c :: '/' :: '-' :: '/' :: t) = splitHead DASH_MARKER [c]
      rw [splitHead_dash_cons3, splitHead_dash_one]
      have h1 : ¬ (c = '/' ∧ '/' = '-' ∧ '-' = '/') := by
        rintro ⟨-, h, -⟩
        exact absurd h (by decide)
      rw [if_neg h1, splitHead_dash_cons3, if_pos ⟨rfl, rfl, rfl⟩]
    | cons d pmid =>
      cases pmid with
      | nil =>
        show splitHead DASH_MARKER (c :: d :: '/' :: '-' :: '/' :: t) =
          splitHead DASH_MARKER [c, d]
        rw [splitHead_dash_cons3, splitHead_dash_two]
        have h1 : ¬ (c = '/' ∧ d = '-' ∧ '/' = '/') := by
          rintro ⟨rfl, rfl, -⟩
          exact hsuf ⟨[], rfl⟩
        rw [if_neg h1, splitHead_dash_cons3]
        have h2 : ¬ (d = '/' ∧ '/' = '-' ∧ '-' = '/') := by
          rintro ⟨-, h, -⟩
          exact absurd h (by decide)
        rw [if_neg h2, splitHead_dash_cons3, if_pos ⟨rfl, rfl, rfl⟩]
      | cons e ptail =>
        have hstep : (c :: d :: e :: ptail) ++ DASH_MARKER ++ t =
            c :: d :: e :: (ptail ++ DASH_MARKER ++ t) := by
          simp
        rw [hstep, splitHead_dash_cons3, splitHead_dash_cons3]
        by_cases h : c = '/' ∧ d = '-' ∧ e = '/'
        · rw [if_pos h, if_pos h]
        · rw [if_neg h, if_neg h]
          have hsuf' : ¬ (['/', '-'] <:+ (d :: e :: ptail)) := fun hs =>
            hsuf (hs.trans (List.suffix_cons c (d :: e :: ptail)))
          have := ih hsuf'
          rw [show (d :: e :: ptail) ++ DASH_MARKER ++ t =
            d :: e :: (ptail ++ DASH_MARKER ++ t) by simp] at this
          rw [this]

/-! ## C8: project-URL classification ignores the view suffix -/

/-- A character that may occur in a GitLab project path (letters, digits,
underscore, dash, dot, and the namespace separator). -/
def validPathChar (c : Char) : Bool :=
  c.isAlphanum || c == '_' || c == '-' || c == '.' || c == '/'

/-- A GitLab project path: made of path characters, and with no path
segment equal to a bare dash (no slash-dash suffix in particular). -/
def isProjectPath (p : List Char) : Bool :=
  p.all validPathChar && !(['/', '-'].isSuffixOf p)

/-- An alphanumeric character is not whitespace. -/
lemma alnum_not_ws (c : Char) (h : c.isAlphanum = true) : c.isWhitespace = false := by
  cases hw : c.isWhitespace
  · rfl
  · exfalso
    simp only [Char.isWhitespace, Bool.or_eq_true, beq_iff_eq, decide_eq_true_eq] at hw
    rcases hw with ((rfl | rfl) | rfl) | rfl <;> exact absurd h (by decide)

/-- Path characters are not colons. -/
lemma validPathChar_ne_colon (c : Char) (h : validPathChar c = true) : c ≠ ':' := by
  intro hc
  rw [hc] at h
  exact absurd h (by decide)

/-- Path characters are not whitespace. -/
lemma validPathChar_not_ws (c : Char) (h : validPathChar c = true) :
    c.isWhitespace = false := by
  simp only [validPathChar, Bool.or_eq_true, beq_iff_eq, decide_eq_true_eq] at h
  rcases h with (((ha | rfl) | rfl) | rfl) | rfl
  · exact alnum_not_ws c ha
  all_goals decide

/-- The three facts the classifier proof needs about a project path. -/
lemma projectPath_facts (p : List Char) (h : isProjectPath p = true) :
    (∀ c ∈ p, c ≠ ':') ∧ (∀ c ∈ p, c.isWhitespace = false) ∧ ¬ (['/', '-'] <:+ p) := by
  simp only [isProjectPath, Bool.and_eq_true, List.all_eq_true] at h
  obtain ⟨hall, hns⟩ := h
  have hsuf : ¬ (['/', '-'] <:+ p) := by
    intro hs
    rw [List.isSuffixOf_iff_suffix.mpr hs] at hns
    exact absurd hns (by decide)
  exact ⟨fun c hc => validPathChar_ne_colon c (hall c hc),
    fun c hc => validPathChar_not_ws c (hall c hc), hsuf⟩

/-- Stripping a URL input only right-strips the free suffix. -/
lemma strip_input1 (p s : List Char) :
    pyStrip (GITLAB_URL_SLASH ++ p ++ DASH_MARKER ++ s) =
      GITLAB_URL_SLASH ++ p ++ DASH_MARKER ++ pyRStrip s := by
  have hcons : GITLAB_URL_SLASH ++ p ++ DASH_MARKER ++ s =
      'h' :: ("ttps://code.swecha.org/".toList ++ p ++ DASH_MARKER ++ s) := rfl
  rw [hcons, pyStrip_cons _ _ (by decide), ← hcons]
  have hlast : (GITLAB_URL_SLASH ++ p ++ DASH_MARKER).getLast? = some '/' := by
    rw [List.getLast?_append_of_ne_nil _ (by decide)]
    rfl
  exact pyRStrip_append _ s '/' hlast (by decide)

/-- Stripping a URL input whose path has no whitespace does nothing. -/
lemma strip_input2 (p : List Char) (hws : ∀ c ∈ p, c.isWhitespace = false) :
    pyStrip (GITLAB_URL_SLASH ++ p) = GITLAB_URL_SLASH ++ p := by
  have hcons : GITLAB_URL_SLASH ++ p =
      'h' :: ("ttps://code.swecha.org/".toList ++ p) := rfl
  rw [hcons, pyStrip_cons _ _ (by decide), ← hcons]
  cases hpl : p.getLast? with
  | none =>
    have hp : p = [] := List.getLast?_eq_none_iff.mp hpl
    subst hp
    rw [List.append_nil]
    exact pyRStrip_eq_self GITLAB_URL_SLASH '/' (by decide) (by decide)
  | some c =>
    have hne : p ≠ [] := by
      intro hp
      rw [hp] at hpl
      simp at hpl
    have hc : c ∈ p := by
      apply List.getElem?_mem
      rw [← List.getLast?_eq_getElem?]
      exact hpl
    apply pyRStrip_eq_self _ c _ (hws c hc)
    rw [List.getLast?_append_of_ne_nil _ hne]
    exact hpl

/-- A base-URL-prefixed string is not numeric. -/
lemma isdigit_gitlab (t : List Char) : pyIsDigit (GITLAB_URL_SLASH ++ t) = false :=
  pyIsDigit_cons_false 'h' _ (by decide)

/-- A base-URL-prefixed string contains the base URL. -/
lemma contains_gitlab (t : List Char) :
    pyContains GITLAB_URL (GITLAB_URL_SLASH ++ t) = true := by
  have h : GITLAB_URL_SLASH ++ t = GITLAB_URL ++ ('/' :: t) := rfl
  rw [h]
  exact pyContains_prefixed _ _ (by decide)

/-- Evaluation of the classifier on a stripped input that contains the
base URL and is not numeric: the URL branch runs, extracting the path
before the first dash marker of the base-stripped input. -/
lemma determine_on_url (api : Api) (x : List Char)
    (h1 : pyIsDigit (pyStrip x) = false)
    (h2 : pyContains GITLAB_URL (pyStrip x) = true) :
    determine_input_type_and_process api x =
      match api.projectLookup (pyQuote (splitHead DASH_MARKER
          (pyReplace GITLAB_URL_SLASH (pyStrip x)))) with
      | some p => ClassifiedInput.project p
      | none => ClassifiedInput.error
          "Could not fetch project from the provided URL".toList := by
  cases hl : api.projectLookup (pyQuote (splitHead DASH_MARKER
      (pyReplace GITLAB_URL_SLASH (pyStrip x)))) <;>
    simp [determine_input_type_and_process, get_project_by_id_or_url, h1, h2, hl]

/-- C8: for every project path `p`, classifying the URL made of the base,
`p`, the dash marker and an arbitrary suffix resolves exactly the same
project as classifying the base followed by `p` alone: the classifier
extracts the path segment before the first dash marker of the
base-stripped input, URL-encodes it and resolves it as a namespaced
project lookup, so the view suffix never affects the resolved project. -/
theorem claim8_url_suffix_irrelevant (api : Api) (p s : List Char)
    (h : isProjectPath p = true) :
    determine_input_type_and_process api
        (GITLAB_URL_SLASH ++ p ++ DASH_MARKER ++ s) =
      determine_input_type_and_process api (GITLAB_URL_SLASH ++ p) ∧
    determine_input_type_and_process api (GITLAB_URL_SLASH ++ p) =
      (match api.projectLookup (pyQuote (splitHead DASH_MARKER p)) with
       | some proj => ClassifiedInput.project proj
       | none => ClassifiedInput.error
           "Could not fetch project from the provided URL".toList) := by
  obtain ⟨hcolon, hws, hsuf⟩ := projectPath_facts p h
  have hshape1 : GITLAB_URL_SLASH ++ p ++ DASH_MARKER ++ pyRStrip s =
      GITLAB_URL_SLASH ++ (p ++ (DASH_MARKER ++ pyRStrip s)) := by
    simp [List.append_assoc]
  have hstrip1 : pyStrip (GITLAB_URL_SLASH ++ p ++ DASH_MARKER ++ s) =
      GITLAB_URL_SLASH ++ (p ++ (DASH_MARKER ++ pyRStrip s)) :=
    (strip_input1 p s).trans hshape1
  have hstrip2 : pyStrip (GITLAB_URL_SLASH ++ p) = GITLAB_URL_SLASH ++ p :=
    strip_input2 p hws
  have hpath1 : splitHead DASH_MARKER (pyReplace GITLAB_URL_SLASH
      (GITLAB_URL_SLASH ++ (p ++ (DASH_MARKER ++ pyRStrip s)))) =
      splitHead DASH_MARKER p := by
    rw [pyReplace_strip_gitlab,
      pyReplace_base_append p (DASH_MARKER ++ pyRStrip s) hcolon (Or.inr rfl),
      pyReplace_dash_head, ← List.append_assoc]
    exact splitHead_append_marker _ p hsuf
  have hpath2 : splitHead DASH_MARKER (pyReplace GITLAB_URL_SLASH
      (GITLAB_URL_SLASH ++ p)) = splitHead DASH_MARKER p := by
    have hb := pyReplace_base_append p [] hcolon (Or.inl rfl)
    rw [List.append_nil] at hb
    rw [show pyReplace GITLAB_URL_SLASH [] = [] from rfl, List.append_nil] at hb
    rw [pyReplace_strip_gitlab, hb]
  have h1 := determine_on_url api (GITLAB_URL_SLASH ++ p ++ DASH_MARKER ++ s)
    (by rw [hstrip1]; exact isdigit_gitlab _)
    (by rw [hstrip1]; exact contains_gitlab _)
  rw [hstrip1, hpath1] at h1
  have h2 := determine_on_url api (GITLAB_URL_SLASH ++ p)
    (by rw [hstrip2]; exact isdigit_gitlab _)
    (by rw [hstrip2]; exact contains_gitlab _)
  rw [hstrip2, hpath2] at h2
  exact ⟨h1.trans h2.symm, h2⟩

/-- An API state resolving the encoded path of `group/proj` to a
project. -/
def apiProjectLookup : Api where
  fileOk := fun _ _ _ => false
  tree := fun _ => none
  projectMeta := fun _ => none
  userSearch := fun _ => none
  projectsPage := fun _ _ => none
  projectLookup := fun enc => if enc == pyQuote "group/proj".toList then some (mkProj 5) else none

/-- Witness for C8 at the concrete path `group/proj` and suffix
`tree/main`. -/
theorem claim8_witness :
    isProjectPath "group/proj".toList = true ∧
    determine_input_type_and_process apiProjectLookup
        (GITLAB_URL_SLASH ++ "group/proj".toList ++ DASH_MARKER ++ "tree/main".toList) =
      determine_input_type_and_process apiProjectLookup
        (GITLAB_URL_SLASH ++ "group/proj".toList) ∧
    determine_input_type_and_process apiProjectLookup
        (GITLAB_URL_SLASH ++ "group/proj".toList) = .project (mkProj 5) :=
  ⟨by decide,
   (claim8_url_suffix_irrelevant apiProjectLookup "group/proj".toList
      "tree/main".toList (by decide)).1,
   by decide⟩
